import Mathlib

/-!
Shallow embedding of `hugo/core/middleware.py` (the concord middleware
pipeline) and proofs about it.

Modelling decisions:
* Python values that flow through the pipeline are modelled by the inductive
  `Value`.  The enum `MiddlewareResult` becomes the constructors
  `Value.ignore` and `Value.ok`; strings, `None`, tuples and plain data have
  their own constructors.  Python classes are modelled as
  `Value.cls c isCtxState` (a class object `c`, with the flag recording
  whether it subclasses `MiddlewareState.ContextState`), and instances of a
  class as `Value.inst c objId` where `objId` is an allocation identity.
* The mutable `Context` object is modelled by explicit state passing: every
  call returns the value together with the context state after the call.
  `Context.states` is `none` while the attribute is absent (it is created
  lazily by `_ensure_context`), `Context.log` is an ordered log used by the
  probe middleware of the testable properties in the spec, and `Context.alloc` is
  the allocator counter giving object identities to per-run state instances.
* `async`/`await` sequencing is cooperative and sequential, so awaited calls
  are modelled as plain function calls.
* Middleware objects are the inductive `Middleware`; each constructor carries
  the object identity `uid` given at construction time, so that claims about
  "the same instance" versus "a new instance" are expressible.  `fnId` fields
  model the `fn` attribute (the identity of an originating plain function).
-/

namespace Hugo

/-- The Python type of a value, as used by `type(state)` when storing states
in the context (`ctx.states[type(state)] = state`). -/
inductive Ty where
  | resultTy
  | noneTy
  | strTy
  | natTy
  | tupTy
  | typeTy
  | clsTy (c : Nat)
  deriving DecidableEq, Repr

/-- Python values flowing through the pipeline.  `ignore` and `ok` are the
two `MiddlewareResult` enum members; `cls c b` is a class object (with `b`
true when the class subclasses `MiddlewareState.ContextState`); `inst c i`
is an instance of class `c` with object identity `i`. -/
inductive Value where
  | ignore
  | ok
  | vnone
  | str (s : String)
  | nat (n : Nat)
  | tup (vs : List Value)
  | cls (c : Nat) (isCtxState : Bool)
  | inst (c : Nat) (objId : Nat)

/-- Python `type(v)` for the modelled values. -/
def Value.typeOf : Value → Ty
  | .ignore => .resultTy
  | .ok => .resultTy
  | .vnone => .noneTy
  | .str _ => .strTy
  | .nat _ => .natTy
  | .tup _ => .tupTy
  | .cls _ _ => .typeTy
  | .inst c _ => .clsTy c

/-- The mutable context object threaded through one chain invocation.
`states` is `none` while the `states` attribute is absent; `log` is an
ordered log for probe middleware; `alloc` is the object-identity
allocator for per-run state instances. -/
structure Context where
  states : Option (List (Ty × Value))
  log : List String
  alloc : Nat

/-- Keyword arguments: an ordered string-keyed dictionary. -/
abbrev Kwargs := List (String × Value)

/-- Assignment `d[k] = v` on an ordered dictionary: replaces the value at an
existing key in place, otherwise appends the new binding. -/
def dictSet (d : Kwargs) (k : String) (v : Value) : Kwargs :=
  match d with
  | [] => [(k, v)]
  | (k', v') :: rest =>
      if k' = k then (k, v) :: rest else (k', v') :: dictSet rest k v

/-- Assignment `d[k] = v` on the type-keyed states dictionary. -/
def statesSet (d : List (Ty × Value)) (k : Ty) (v : Value) : List (Ty × Value) :=
  match d with
  | [] => [(k, v)]
  | (k', v') :: rest =>
      if k' = k then (k, v) :: rest else (k', v') :: statesSet rest k v

/-- Lookup `d.get(k)` on the type-keyed states dictionary. -/
def statesGet (d : List (Ty × Value)) (k : Ty) : Option Value :=
  match d with
  | [] => none
  | (k', v') :: rest => if k' = k then some v' else statesGet rest k

/-- The type of a continuation `next`: it takes the positional arguments,
the (keyword) context and the keyword arguments, and returns the result
value together with the context state after the call. -/
abbrev Next := List Value → Context → Kwargs → Value × Context

/-- The type of the body of a middleware function: like `Next` but also
receiving a `next` continuation. -/
abbrev HFun := List Value → Context → Next → Kwargs → Value × Context

/-- Embeds `is_successful_result` (module-level function, middleware.py lines
44-50): `True` unless the value equals `MiddlewareResult.IGNORE`
(`MiddlewareResult` is a plain enum, so `==` is the identity of the enum
member, i.e. exactly the `Value.ignore` constructor here). -/
def is_successful_result (value : Value) : Bool :=
  match value with
  | .ignore => false
  | _ => true

/-- Middleware objects.  `uid` is the object identity assigned at
construction.  `func uid fnId f` is a `MiddlewareFunction` wrapping the
plain coroutine function with identity `fnId` and behaviour `f`;
`state uid cfg key` is a `MiddlewareState`; `chain uid fnId ms` is a
`MiddlewareChain` whose `fn` attribute is `fnId` and whose `collection` is
`ms` in storage order; `oneOfAll`/`allOfAll` are the two groups. -/
inductive Middleware where
  | func (uid : Nat) (fnId : Nat) (f : HFun)
  | state (uid : Nat) (cfg : Value) (key : Option String)
  | chain (uid : Nat) (fnId : Option Nat) (ms : List Middleware)
  | oneOfAll (uid : Nat) (ms : List Middleware)
  | allOfAll (uid : Nat) (ms : List Middleware)

/-- The `fn` attribute of a middleware object: the originating plain
function for a `MiddlewareFunction`, the adopted one for a chain, and
`None` otherwise (set by `Middleware.__init__`). -/
def Middleware.fnAttr : Middleware → Option Nat
  | .func _ fnId _ => some fnId
  | .chain _ fnId _ => fnId
  | _ => none

/-- The object identity of a middleware object. -/
def Middleware.uid : Middleware → Nat
  | .func uid _ _ => uid
  | .state uid _ _ => uid
  | .chain uid _ _ => uid
  | .oneOfAll uid _ => uid
  | .allOfAll uid _ => uid

/-- Embeds `MiddlewareState._ensure_context` (lines 233-237): create the `states`
dictionary if the attribute is absent. -/
def ensure_context (ctx : Context) : Context :=
  match ctx.states with
  | none => { ctx with states := some [] }
  | some _ => ctx

/-- Embeds `MiddlewareState.set_state` (lines 227-231): ensure the store exists,
then `ctx.states[type(state)] = state`. -/
def set_state (ctx : Context) (state : Value) : Context :=
  let ctx := ensure_context ctx
  { ctx with
    states := some (statesSet (ctx.states.getD []) state.typeOf state) }

/-- Embeds `MiddlewareState.get_state` (lines 221-225): ensure the store exists,
then `ctx.states.get(state_type)`. -/
def get_state (ctx : Context) (ty : Ty) : Option Value :=
  statesGet ((ensure_context ctx).states.getD []) ty

/-- Is the configured state a per-run type marker, i.e. does
`isinstance(state, type) and issubclass(state, MiddlewareState.ContextState)`
hold?  In the model only `Value.cls c true` satisfies it. -/
def isContextStateClass : Value → Bool
  | .cls _ b => b
  | _ => false

/-- Embeds `MiddlewareState.run` (lines 206-219): resolve the state (instantiating
a `ContextState` subclass, which allocates a fresh object identity),
optionally add it to the keyword arguments (`if self.key:` — Python
truthiness, so `None` and the empty string both skip), store it in the
context, and call `next`. -/
def stateRun (cfg : Value) (key : Option String) (args : List Value)
    (ctx : Context) (next : Next) (kwargs : Kwargs) : Value × Context :=
  let resolved : Value × Context :=
    if isContextStateClass cfg then
      match cfg with
      | .cls c _ => (Value.inst c ctx.alloc, { ctx with alloc := ctx.alloc + 1 })
      | _ => (cfg, ctx)
    else (cfg, ctx)
  let st := resolved.1
  let ctx1 := resolved.2
  let kwargs1 :=
    match key with
    | some k => if k.isEmpty then kwargs else dictSet kwargs k st
    | none => kwargs
  let ctx2 := set_state ctx1 st
  next args ctx2 kwargs1

mutual

/-- Embeds the `run` method of each middleware class.  `func` is `MiddlewareFunction.run`
(line 156-160); `state` is `MiddlewareState.run`; `chain` is
`MiddlewareChain.run` (lines 313-323), which folds the collection in
storage order into nested continuations via `chainNext` and invokes the
result; `oneOfAll` is `OneOfAll.run` (lines 420-428); `allOfAll` is
`AllOfAll.run` (lines 440-448). -/
def Middleware.run (m : Middleware) (args : List Value) (ctx : Context)
    (next : Next) (kwargs : Kwargs) : Value × Context :=
  match m with
  | .func _ _ f => f args ctx next kwargs
  | .state _ cfg key => stateRun cfg key args ctx next kwargs
  | .chain _ _ ms => chainNext ms next args ctx kwargs
  | .oneOfAll _ ms => oneOfAllRun ms args ctx next kwargs
  | .allOfAll _ ms =>
      let p := allOfAllRun ms args ctx next kwargs
      (Value.tup p.1, p.2)
termination_by sizeOf m

/-- The loop of `MiddlewareChain.run`: `for current in self.collection:
next = lambda *args, ctx, **kwargs: current.run(*args, ctx=ctx, next=next,
**kwargs)`, then the final `next` is returned (to be invoked). -/
def chainNext (ms : List Middleware) (next : Next) : Next :=
  match ms with
  | [] => next
  | current :: rest =>
      chainNext rest
        (fun args ctx kwargs => current.run args ctx next kwargs)
termination_by sizeOf ms

/-- The loop of `OneOfAll.run`: run members in order with the same `next`,
returning the first successful result, else `IGNORE`. -/
def oneOfAllRun (ms : List Middleware) (args : List Value) (ctx : Context)
    (next : Next) (kwargs : Kwargs) : Value × Context :=
  match ms with
  | [] => (Value.ignore, ctx)
  | mw :: rest =>
      let p := mw.run args ctx next kwargs
      if is_successful_result p.1 then p
      else oneOfAllRun rest args p.2 next kwargs
termination_by sizeOf ms

/-- The loop of `AllOfAll.run`: run every member in order with the same
`next`, collecting all results. -/
def allOfAllRun (ms : List Middleware) (args : List Value) (ctx : Context)
    (next : Next) (kwargs : Kwargs) : List Value × Context :=
  match ms with
  | [] => ([], ctx)
  | mw :: rest =>
      let p := mw.run args ctx next kwargs
      let q := allOfAllRun rest args p.2 next kwargs
      (p.1 :: q.1, q.2)
termination_by sizeOf ms

end

/-! ### Construction-time surface

The construction helpers see arbitrary Python values and branch on
`isinstance(..., Middleware)` / `asyncio.iscoroutinefunction(...)`.  `Dyn`
models such a value: a middleware instance, a coroutine function (an
`async def` function, with an object identity `fnId`), or anything else
(including plain synchronous callables).  Note that a middleware instance
has an `async __call__` method but is *not* itself a coroutine function.
Constructors allocate fresh object identities from a counter `n` that is
threaded through; a raised `ValueError` is an `Except.error`. -/

/-- A dynamically-typed Python value at a construction-time boundary. -/
inductive Dyn where
  | mw (m : Middleware)
  | coroFn (fnId : Nat) (f : HFun)
  | plain

/-- Test `isinstance(d, Middleware)`. -/
def isinstanceMiddleware : Dyn → Bool
  | .mw _ => true
  | _ => false

/-- Embeds `asyncio.iscoroutinefunction(d)`: true exactly for `async def`
functions.  A `Middleware` instance is an object with an `async __call__`,
not a coroutine function, so it is `false` here. -/
def iscoroutinefunction : Dyn → Bool
  | .coroFn _ _ => true
  | _ => false

/-- Embeds `MiddlewareFunction.__init__` (lines 149-154): `if not
asyncio.iscoroutinefunction(fn): raise ValueError("Not a coroutine")`,
else store `fn`.  The match accepts exactly the values on which
`iscoroutinefunction` is true. -/
def MiddlewareFunction.init (fn : Dyn) (uid : Nat) : Except String Middleware :=
  match fn with
  | .coroFn fnId f => .ok (.func uid fnId f)
  | _ => .error "Not a coroutine"

/-- Embeds `as_middleware` (lines 326-343): convert a function into a middleware
by constructing a `MiddlewareFunction` — unconditionally, no deduplication
or pass-through. -/
def as_middleware (fn : Dyn) (uid : Nat) : Except String Middleware :=
  MiddlewareFunction.init fn uid

/-- Embeds `MiddlewareCollection.add_middleware` (lines 259-283): raise
`ValueError` unless the value is a `Middleware`, else append it to
`self.collection` and return it.  Returns the updated collection list
together with the returned middleware. -/
def MiddlewareCollection.add_middleware (col : List Middleware) (d : Dyn) :
    Except String (List Middleware × Middleware) :=
  match d with
  | .mw mm => .ok (col ++ [mm], mm)
  | _ => .error "Not a middleware"

/-- Method dispatch for `add_middleware` on a collection object.
`MiddlewareChain.add_middleware` (lines 305-311) calls the base method and
then, when the collection just gained its first member, adopts that
`fn` attribute of that member; the two groups use the base method unchanged.
Returns the updated collection object and the middleware the call
returns. -/
def addMiddleware (col : Middleware) (d : Dyn) :
    Except String (Middleware × Middleware) :=
  match col with
  | .chain uid fnId ms =>
      match MiddlewareCollection.add_middleware ms d with
      | .error e => .error e
      | .ok (ms', mm) =>
          let fnId' := if ms'.length = 1 then mm.fnAttr else fnId
          .ok (.chain uid fnId' ms', mm)
  | .oneOfAll uid ms =>
      match MiddlewareCollection.add_middleware ms d with
      | .error e => .error e
      | .ok (ms', mm) => .ok (.oneOfAll uid ms', mm)
  | .allOfAll uid ms =>
      match MiddlewareCollection.add_middleware ms d with
      | .error e => .error e
      | .ok (ms', mm) => .ok (.allOfAll uid ms', mm)
  | _ => .error "not a collection"

/-- The three concrete `MiddlewareCollection` classes that can be passed
to `collection_of`. -/
inductive CollectionKind where
  | chainK
  | oneOfAllK
  | allOfAllK

/-- Embeds `collection_class()`: construct an empty collection of the given
class, with a fresh object identity. -/
def CollectionKind.new : CollectionKind → Nat → Middleware
  | .chainK, uid => .chain uid none []
  | .oneOfAllK, uid => .oneOfAll uid []
  | .allOfAllK, uid => .allOfAll uid []

/-- The loop of `collection_of` (lines 364-367): for each item, coerce it
with `as_middleware` unless it already is a middleware, then add it to the
collection.  `n` is the allocator counter for the coercions. -/
def collectionOfLoop (items : List Dyn) (col : Middleware) (n : Nat) :
    Except String (Middleware × Nat) :=
  match items with
  | [] => .ok (col, n)
  | d :: rest =>
      match d with
      | .mw m =>
          match addMiddleware col (.mw m) with
          | .error e => .error e
          | .ok (col', _) => collectionOfLoop rest col' n
      | _ =>
          match as_middleware d n with
          | .error e => .error e
          | .ok m =>
              match addMiddleware col (.mw m) with
              | .error e => .error e
              | .ok (col', _) => collectionOfLoop rest col' (n + 1)

/-- Embeds `collection_of` (lines 346-369): create an empty collection of the
requested class and add every item in order, coercing non-middleware. -/
def collection_of (kind : CollectionKind) (items : List Dyn) (n : Nat) :
    Except String (Middleware × Nat) :=
  collectionOfLoop items (kind.new n) (n + 1)

/-- Embeds `chain_of` (lines 372-385): `collection_of(MiddlewareChain, items)`. -/
def chain_of (items : List Dyn) (n : Nat) : Except String (Middleware × Nat) :=
  collection_of .chainK items n

/-- The factory part of `middleware` (lines 399-400): coerce the outer
middleware with `as_middleware` if it is not a `Middleware`. -/
def middleware (outer : Dyn) (n : Nat) : Except String (Middleware × Nat) :=
  match outer with
  | .mw m => .ok (m, n)
  | _ =>
      match as_middleware outer n with
      | .error e => .error e
      | .ok m => .ok (m, n + 1)

/-- The decorator returned by `middleware` (lines 402-408): if the inner
target is already a `MiddlewareChain`, add the outer middleware to it and
return the same chain object, else build `chain_of([inner, outer])`. -/
def middlewareDecorator (outer : Middleware) (inner : Dyn) (n : Nat) :
    Except String (Middleware × Nat) :=
  match inner with
  | .mw (.chain uid fnId ms) =>
      match addMiddleware (.chain uid fnId ms) (.mw outer) with
      | .error e => .error e
      | .ok (ch, _) => .ok (ch, n)
  | _ => chain_of [inner, .mw outer] n

/-! ### Test fixtures

Concrete middleware and continuations used to state the observable
properties: probes that log their activity into the context-held log, and
recording/constant continuations. -/

/-- Is the middleware object a `MiddlewareChain`
(`isinstance(m, MiddlewareChain)`)? -/
def isChain : Middleware → Bool
  | .chain _ _ _ => true
  | _ => false

/-- A probe middleware: appends `name ++ "-before"` to the context log,
delegates to `next`, appends `name ++ "-after"`, and returns the result of
`next` unchanged. -/
def probe (name : String) : Middleware :=
  .func 0 0 (fun args ctx next kwargs =>
    let p := next args { ctx with log := ctx.log ++ [name ++ "-before"] } kwargs
    (p.1, { p.2 with log := p.2.log ++ [name ++ "-after"] }))

/-- A terminal continuation that appends `"T"` to the context log and
returns `v`. -/
def terminalLog (v : Value) : Next :=
  fun _ ctx _ => (v, { ctx with log := ctx.log ++ ["T"] })

/-- A middleware that appends its name to the context log and returns the
fixed value `v` without calling `next`. -/
def constMw (name : String) (v : Value) : Middleware :=
  .func 0 0 (fun _ ctx _ _ => (v, { ctx with log := ctx.log ++ [name] }))

/-- A middleware that appends its name to the context log and then
delegates to `next`, returning its result unchanged. -/
def delegMw (name : String) : Middleware :=
  .func 0 0 (fun args ctx next kwargs =>
    next args { ctx with log := ctx.log ++ [name] } kwargs)

/-- A terminal continuation returning the fixed value `v` and leaving the
context unchanged. -/
def constNext (v : Value) : Next :=
  fun _ ctx _ => (v, ctx)

/-- A terminal continuation that encodes the positional and keyword
arguments it receives into its result value, so a theorem can observe
exactly what was forwarded to `next`. -/
def recordingNext : Next :=
  fun args ctx kwargs =>
    (Value.tup [Value.tup args,
      Value.tup (kwargs.map (fun p => Value.tup [Value.str p.1, p.2]))], ctx)

/-- Two consecutive constructor calls `as_middleware(fn)` from allocator
counter `n`: the second call consumes the next identity. -/
def asMiddlewareTwice (d : Dyn) (n : Nat) :
    Except String (Middleware × Middleware × Nat) :=
  match as_middleware d n with
  | .error e => .error e
  | .ok u1 =>
      match as_middleware d (n + 1) with
      | .error e => .error e
      | .ok u2 => .ok (u1, u2, n + 2)

/-! ### Helper lemmas -/

/-- Setting a key in the states dictionary makes it retrievable. -/
theorem statesGet_statesSet (d : List (Ty × Value)) (k : Ty) (v : Value) :
    statesGet (statesSet d k v) k = some v := by
  induction d with
  | nil => simp [statesSet, statesGet]
  | cons hd tl ih =>
      by_cases h : hd.1 = k <;> simp [statesSet, statesGet, h, ih]

/-- Applying `set_state` followed by a lookup at the type of the state
returns the state. -/
theorem get_state_set_state (ctx : Context) (v : Value) :
    get_state (set_state ctx v) v.typeOf = some v := by
  cases h : ctx.states <;>
    simp [get_state, set_state, ensure_context, h, statesGet_statesSet]

/-- Applying `set_state` does not touch the allocator counter. -/
theorem alloc_set_state (ctx : Context) (v : Value) :
    (set_state ctx v).alloc = ctx.alloc := by
  cases h : ctx.states <;> simp [set_state, ensure_context, h]

/-- One step of the `OneOfAll.run` loop. -/
theorem oneOfAllRun_cons (m : Middleware) (ms : List Middleware)
    (args : List Value) (ctx : Context) (next : Next) (kwargs : Kwargs) :
    oneOfAllRun (m :: ms) args ctx next kwargs
      = if is_successful_result (m.run args ctx next kwargs).1
        then m.run args ctx next kwargs
        else oneOfAllRun ms args (m.run args ctx next kwargs).2 next kwargs := by
  simp [oneOfAllRun]

/-- One step of the `AllOfAll.run` loop. -/
theorem allOfAllRun_cons (m : Middleware) (ms : List Middleware)
    (args : List Value) (ctx : Context) (next : Next) (kwargs : Kwargs) :
    allOfAllRun (m :: ms) args ctx next kwargs
      = ((m.run args ctx next kwargs).1
            :: (allOfAllRun ms args (m.run args ctx next kwargs).2 next kwargs).1,
         (allOfAllRun ms args (m.run args ctx next kwargs).2 next kwargs).2) := by
  simp [allOfAllRun]

/-- Evaluating a constant probe middleware. -/
theorem run_constMw (nm : String) (v : Value) (args : List Value)
    (ctx : Context) (next : Next) (kwargs : Kwargs) :
    (constMw nm v).run args ctx next kwargs
      = (v, { ctx with log := ctx.log ++ [nm] }) := by
  simp [constMw, Middleware.run]

/-- Running a `OneOfAll` group all of whose members immediately return
`IGNORE` yields `IGNORE`, with every member invoked in storage order. -/
theorem oneOfAllRun_all_ignore (names : List String) (args : List Value)
    (ctx : Context) (next : Next) (kwargs : Kwargs) :
    oneOfAllRun (names.map (fun nm => constMw nm Value.ignore)) args ctx next kwargs
      = (Value.ignore, { ctx with log := ctx.log ++ names }) := by
  induction names generalizing ctx with
  | nil => simp [oneOfAllRun]
  | cons nm rest ih =>
      rw [List.map_cons, oneOfAllRun_cons, run_constMw]
      simp only [is_successful_result]
      rw [ih]
      simp

/-- Running an `AllOfAll` group of constant members collects every raw
result in storage order. -/
theorem allOfAllRun_const (ps : List (String × Value)) (args : List Value)
    (ctx : Context) (next : Next) (kwargs : Kwargs) :
    allOfAllRun (ps.map (fun p => constMw p.1 p.2)) args ctx next kwargs
      = (ps.map Prod.snd, { ctx with log := ctx.log ++ ps.map Prod.fst }) := by
  induction ps generalizing ctx with
  | nil => simp [allOfAllRun]
  | cons p rest ih =>
      rw [List.map_cons, allOfAllRun_cons, run_constMw]
      simp only []
      rw [ih]
      simp

/-! ### Claims -/

/-- C1: a Sequential Chain whose members were added in order `[A, B]`, both
delegating to their continuation, composes by folding over the stored
sequence in storage order starting from the terminal `next`: delegation
enters `B` first, then `A`, then the terminal, so with probes logging
before and after their `next` call and a terminal logging `"T"` the log
reads `[B-before, A-before, T, A-after, B-after]`, and the chain returns
the result of the terminal when neither member transforms it. -/
theorem C1_sequential_chain_nested_delegation (a b : String) (n : Nat)
    (args : List Value) (ctx : Context) (kwargs : Kwargs) (v : Value) :
    chain_of [.mw (probe a), .mw (probe b)] n
      = .ok (.chain n (some 0) [probe a, probe b], n + 1)
    ∧ (Middleware.chain n (some 0) [probe a, probe b]).run args ctx
        (terminalLog v) kwargs
      = (v, { ctx with
              log := ctx.log ++ [b ++ "-before", a ++ "-before", "T",
                                 a ++ "-after", b ++ "-after"] }) := by
  constructor
  · simp [chain_of, collection_of, collectionOfLoop, CollectionKind.new,
      addMiddleware, MiddlewareCollection.add_middleware, probe,
      Middleware.fnAttr]
  · simp [Middleware.run, chainNext, probe, terminalLog]

/-- C2: a First-Success Group invokes members strictly in storage order
with the same terminal `next`, context and arguments (no nesting), returns
the first non-`IGNORE` result immediately so later members are never
invoked, and returns `IGNORE` when every member ignores or the group is
empty.  The context-held log records exactly which members ran; in the
`[M1 -> IGNORE, M2 -> "X", M3 -> "Y"]` scenario the result is `"X"` and
`M3` never appears in the log, and a delegating member reaches the
terminal directly (log `"T"` immediately after `"M2"`). -/
theorem C2_oneOfAll_first_success (u : Nat) (args : List Value)
    (ctx : Context) (next : Next) (kwargs : Kwargs) (names : List String) :
    (Middleware.oneOfAll u []).run args ctx next kwargs = (Value.ignore, ctx)
    ∧ (Middleware.oneOfAll u (names.map (fun nm => constMw nm Value.ignore))).run
        args ctx next kwargs
      = (Value.ignore, { ctx with log := ctx.log ++ names })
    ∧ (Middleware.oneOfAll u [constMw "M1" Value.ignore,
          constMw "M2" (Value.str "X"), constMw "M3" (Value.str "Y")]).run
        args ctx next kwargs
      = (Value.str "X", { ctx with log := ctx.log ++ ["M1", "M2"] })
    ∧ (Middleware.oneOfAll u [constMw "M1" Value.ignore, delegMw "M2"]).run
        args ctx (terminalLog (Value.str "T")) kwargs
      = (Value.str "T", { ctx with log := ctx.log ++ ["M1", "M2", "T"] }) := by
  refine ⟨by simp [Middleware.run, oneOfAllRun], ?_, ?_, ?_⟩
  · simp only [Middleware.run]
    exact oneOfAllRun_all_ignore names args ctx next kwargs
  · simp [Middleware.run, oneOfAllRun, constMw, is_successful_result]
  · simp [Middleware.run, oneOfAllRun, constMw, delegMw, terminalLog,
      is_successful_result]

/-- C3: an All-Results Group invokes every member strictly in storage
order, each receiving the same terminal `next`, collects each raw result
(successful or `IGNORE`) into an ordered sequence and returns it; the
result of the group itself is a tuple and hence always successful, and an empty
group returns an empty sequence. -/
theorem C3_allOfAll_collects_all (u : Nat) (args : List Value) (ctx : Context)
    (next : Next) (kwargs : Kwargs) (ps : List (String × Value))
    (vs : List Value) :
    (Middleware.allOfAll u []).run args ctx next kwargs = (Value.tup [], ctx)
    ∧ (Middleware.allOfAll u (ps.map (fun p => constMw p.1 p.2))).run
        args ctx next kwargs
      = (Value.tup (ps.map Prod.snd),
         { ctx with log := ctx.log ++ ps.map Prod.fst })
    ∧ (Middleware.allOfAll u [constMw "M1" (Value.str "X"),
          constMw "M2" Value.ignore]).run args ctx next kwargs
      = (Value.tup [Value.str "X", Value.ignore],
         { ctx with log := ctx.log ++ ["M1", "M2"] })
    ∧ (Middleware.allOfAll u [delegMw "M1", delegMw "M2"]).run args ctx
        (terminalLog (Value.str "T")) kwargs
      = (Value.tup [Value.str "T", Value.str "T"],
         { ctx with log := ctx.log ++ ["M1", "T", "M2", "T"] })
    ∧ is_successful_result (Value.tup vs) = true := by
  refine ⟨by simp [Middleware.run, allOfAllRun], ?_, ?_, ?_, rfl⟩
  · simp only [Middleware.run]
    rw [allOfAllRun_const ps args ctx next kwargs]
  · simp [Middleware.run, allOfAllRun, constMw]
  · simp [Middleware.run, allOfAllRun, delegMw, terminalLog]

/-- C4: `is_successful_result v` is true exactly when `v` is not the
`IGNORE` sentinel; in particular `OK`, `None` and data values are
successful and only `IGNORE` is not. -/
theorem C4_is_successful_result_iff_not_ignore (v : Value) (s : String) :
    (is_successful_result v = true ↔ v ≠ Value.ignore)
    ∧ is_successful_result Value.ok = true
    ∧ is_successful_result Value.vnone = true
    ∧ is_successful_result (Value.str s) = true
    ∧ is_successful_result Value.ignore = false := by
  refine ⟨?_, rfl, rfl, rfl, rfl⟩
  cases v <;> simp [is_successful_result]

/-- C6: an empty Sequential Chain behaves exactly as calling the terminal
`next` directly with the given arguments, context and keyword arguments;
in particular with a terminal returning `"T"` and no extra arguments it
returns `"T"`. -/
theorem C6_empty_chain_calls_terminal (u : Nat) (fnId : Option Nat)
    (args : List Value) (ctx : Context) (next : Next) (kwargs : Kwargs) :
    (Middleware.chain u fnId []).run args ctx next kwargs = next args ctx kwargs
    ∧ (Middleware.chain u fnId []).run [] ctx (constNext (Value.str "T")) []
      = (Value.str "T", ctx) := by
  constructor <;> simp [Middleware.run, chainNext, constNext]

/-- C4 witness: the data value `"data"` is successful and differs from the
sentinel, and the sentinel itself is not successful. -/
theorem C4_is_successful_result_iff_not_ignore_witness :
    Value.str "data" ≠ Value.ignore
    ∧ is_successful_result (Value.str "data") = true
    ∧ is_successful_result Value.ignore = false :=
  ⟨(C4_is_successful_result_iff_not_ignore (Value.str "data") "x").1.mp rfl,
   (C4_is_successful_result_iff_not_ignore Value.ignore "data").2.2.2.1,
   (C4_is_successful_result_iff_not_ignore Value.ignore "x").2.2.2.2⟩

/-- C5: a State Injector resolves its state (instantiating a per-run
`ContextState` subclass with no arguments, giving a fresh instance per
invocation, and otherwise using the stored value as-is), adds
`{key: resolved_state}` to the forwarded keyword arguments when a key was
configured, always stores the resolved state into the state store of the
context keyed by the type of the state, and returns the result of `next`
unchanged. -/
theorem C5_state_injector_run (u : Nat) (v : Value) (k : String) (c : Nat)
    (args : List Value) (ctx : Context) (next : Next) (kwargs : Kwargs)
    (hv : isContextStateClass v = false) (hk : k.isEmpty = false) :
    (Middleware.state u v (some k)).run args ctx next kwargs
      = next args (set_state ctx v) (dictSet kwargs k v)
    ∧ get_state (set_state ctx v) v.typeOf = some v
    ∧ (Middleware.state u (Value.cls c true) none).run args ctx next kwargs
      = next args
          (set_state { ctx with alloc := ctx.alloc + 1 } (Value.inst c ctx.alloc))
          kwargs
    ∧ (get_state ((Middleware.state u (Value.cls c true) none).run args ctx
            (constNext Value.vnone) kwargs).2 (Ty.clsTy c)
        = some (Value.inst c ctx.alloc))
    ∧ (get_state ((Middleware.state u (Value.cls c true) none).run args
            ((Middleware.state u (Value.cls c true) none).run args ctx
              (constNext Value.vnone) kwargs).2
            (constNext Value.vnone) kwargs).2 (Ty.clsTy c)
        = some (Value.inst c (ctx.alloc + 1)))
    ∧ Value.inst c ctx.alloc ≠ Value.inst c (ctx.alloc + 1) := by
  have hrun : ∀ (ctx' : Context),
      ((Middleware.state u (Value.cls c true) none).run args ctx'
          (constNext Value.vnone) kwargs).2
        = set_state { ctx' with alloc := ctx'.alloc + 1 }
            (Value.inst c ctx'.alloc) := by
    intro ctx'
    simp [Middleware.run, stateRun, constNext, isContextStateClass]
  have hget : ∀ (ctx' : Context) (a : Nat),
      get_state (set_state ctx' (Value.inst c a)) (Ty.clsTy c)
        = some (Value.inst c a) := by
    intro ctx' a
    have h := get_state_set_state ctx' (Value.inst c a)
    simpa [Value.typeOf] using h
  refine ⟨?_, get_state_set_state ctx v, ?_, ?_, ?_, by simp⟩
  · simp [Middleware.run, stateRun, hv, hk]
  · simp [Middleware.run, stateRun, isContextStateClass]
  · rw [hrun ctx]
    exact hget _ _
  · rw [hrun ctx, hrun _]
    have halloc : (set_state { ctx with alloc := ctx.alloc + 1 }
        (Value.inst c ctx.alloc)).alloc = ctx.alloc + 1 :=
      alloc_set_state _ _
    rw [halloc]
    exact hget _ _

/-- C5 witness: concrete run of a State Injector holding the string state
`"s"` under key `"key"`, observed through the recording terminal. -/
theorem C5_state_injector_run_witness :
    isContextStateClass (Value.str "s") = false
    ∧ String.isEmpty "key" = false
    ∧ (Middleware.state 0 (Value.str "s") (some "key")).run []
        (Context.mk none [] 0) recordingNext []
      = recordingNext [] (set_state (Context.mk none [] 0) (Value.str "s"))
          (dictSet [] "key" (Value.str "s")) :=
  ⟨rfl, rfl,
    (C5_state_injector_run 0 (Value.str "s") "key" 0 [] (Context.mk none [] 0)
      recordingNext [] rfl rfl).1⟩

/-- C10: a State Injector whose key is the empty string behaves exactly
like one configured with no key — presence of a key is tested by Python
truthiness, so no extra keyword argument is forwarded to `next` — while
the resolved state is still stored into the state store of the context. -/
theorem C10_empty_string_key_like_none (u : Nat) (cfg : Value) (s : String)
    (args : List Value) (ctx : Context) (next : Next) (kwargs : Kwargs) :
    (Middleware.state u cfg (some "")).run args ctx next kwargs
      = (Middleware.state u cfg none).run args ctx next kwargs
    ∧ (Middleware.state u (Value.str s) (some "")).run args ctx next kwargs
      = next args (set_state ctx (Value.str s)) kwargs
    ∧ get_state (set_state ctx (Value.str s)) Ty.strTy
      = some (Value.str s) := by
  have hempty : String.isEmpty "" = true := rfl
  refine ⟨?_, ?_, ?_⟩
  · simp [Middleware.run, stateRun, hempty]
  · simp [Middleware.run, stateRun, isContextStateClass, hempty]
  · have h := get_state_set_state ctx (Value.str s)
    simpa [Value.typeOf] using h

/-- C7 as stated is false: `as_middleware` does not always succeed on a
value that is already a middleware — a `Middleware` instance is not a
coroutine function, so `MiddlewareFunction.__init__` raises
`ValueError("Not a coroutine")`.  Concrete input: an (empty) `OneOfAll`
instance. -/
theorem C7_as_unit_counterexample :
    as_middleware (Dyn.mw (Middleware.oneOfAll 0 [])) 1
      = Except.error "Not a coroutine" := rfl

/-- C7 amended: `as_middleware(fn)` wraps `fn` in a new
`MiddlewareFunction` whenever `fn` is a coroutine function — two
consecutive applications to the same function yield two distinct wrapper
instances (no deduplication, no pass-through) — but when `fn` is already a
middleware instance (hence not a coroutine function) it raises
`ValueError` instead of succeeding. -/
theorem C7_as_unit_amended (fnId : Nat) (f : HFun) (n : Nat) (m : Middleware) :
    asMiddlewareTwice (Dyn.coroFn fnId f) n
      = .ok (.func n fnId f, .func (n + 1) fnId f, n + 2)
    ∧ (Middleware.func n fnId f).uid ≠ (Middleware.func (n + 1) fnId f).uid
    ∧ as_middleware (Dyn.mw m) n = .error "Not a coroutine" := by
  refine ⟨rfl, ?_, rfl⟩
  simp [Middleware.uid]

/-- C7 witness: two consecutive adapter applications to a concrete
delegating coroutine function yield wrappers with distinct identities. -/
theorem C7_as_unit_amended_witness :
    asMiddlewareTwice (Dyn.coroFn 4 (fun a c nx k => nx a c k)) 10
      = .ok (.func 10 4 (fun a c nx k => nx a c k),
             .func 11 4 (fun a c nx k => nx a c k), 12)
    ∧ (Middleware.func 10 4 (fun a c nx k => nx a c k)).uid
        ≠ (Middleware.func 11 4 (fun a c nx k => nx a c k)).uid :=
  ⟨(C7_as_unit_amended 4 (fun a c nx k => nx a c k) 10
      (Middleware.oneOfAll 0 [])).1,
   (C7_as_unit_amended 4 (fun a c nx k => nx a c k) 10
      (Middleware.oneOfAll 0 [])).2.1⟩

/-- C8: adapting a callable into a middleware raises `ValueError` exactly
when the callable is not a coroutine function, and `add_middleware` raises
`ValueError` exactly when the value is not a `Middleware`; otherwise it
appends the middleware to the owned sequence and returns the same
middleware unchanged. -/
theorem C8_construction_validation (d : Dyn) (u : Nat) (col : List Middleware)
    (m : Middleware) :
    (MiddlewareFunction.init d u = .error "Not a coroutine"
       ↔ iscoroutinefunction d = false)
    ∧ (MiddlewareCollection.add_middleware col d = .error "Not a middleware"
       ↔ isinstanceMiddleware d = false)
    ∧ MiddlewareCollection.add_middleware col (.mw m) = .ok (col ++ [m], m) := by
  refine ⟨?_, ?_, rfl⟩ <;> cases d <;>
    simp [MiddlewareFunction.init, MiddlewareCollection.add_middleware,
      iscoroutinefunction, isinstanceMiddleware]

/-- C8 witness: a non-middleware value is rejected by the adapter, and
adding a concrete middleware appends it and returns it. -/
theorem C8_construction_validation_witness :
    MiddlewareFunction.init Dyn.plain 0 = .error "Not a coroutine"
    ∧ MiddlewareCollection.add_middleware [] (Dyn.mw (Middleware.oneOfAll 3 []))
      = .ok ([Middleware.oneOfAll 3 []], Middleware.oneOfAll 3 []) :=
  ⟨(C8_construction_validation Dyn.plain 0 [] (Middleware.oneOfAll 3 [])).1.mpr
      rfl,
    (C8_construction_validation (Dyn.mw (Middleware.oneOfAll 3 [])) 0 []
      (Middleware.oneOfAll 3 [])).2.2⟩

/-- C9: the `middleware(outer)` decorator factory coerces `outer` to a
middleware if needed; the resulting decorator, applied to an inner target
that is already a `MiddlewareChain`, appends `outer` to that chain and
returns the same chain object (same identity, collection extended);
applied to any other inner target it builds and returns a new chain whose
members are `[inner, outer]` in that order, coercing `inner` if needed. -/
theorem C9_middleware_decorator (n uid i : Nat) (outer m : Middleware)
    (fnId : Option Nat) (ms : List Middleware) (f : HFun)
    (hm : isChain m = false) :
    middleware (Dyn.mw outer) n = .ok (outer, n)
    ∧ middleware (Dyn.coroFn i f) n = .ok (.func n i f, n + 1)
    ∧ middlewareDecorator outer (Dyn.mw (Middleware.chain uid fnId ms)) n
      = .ok (.chain uid
          (if (ms ++ [outer]).length = 1 then outer.fnAttr else fnId)
          (ms ++ [outer]), n)
    ∧ middlewareDecorator outer (Dyn.mw m) n
      = .ok (.chain n m.fnAttr [m, outer], n + 1)
    ∧ middlewareDecorator outer (Dyn.coroFn i f) n
      = .ok (.chain n (some i) [.func (n + 1) i f, outer], n + 2) := by
  refine ⟨rfl, rfl, ?_, ?_, ?_⟩
  · simp [middlewareDecorator, addMiddleware,
      MiddlewareCollection.add_middleware]
  · cases m with
    | chain a b c => simp [isChain] at hm
    | func a b c =>
        simp [middlewareDecorator, chain_of, collection_of, collectionOfLoop,
          CollectionKind.new, addMiddleware,
          MiddlewareCollection.add_middleware, Middleware.fnAttr]
    | state a b c =>
        simp [middlewareDecorator, chain_of, collection_of, collectionOfLoop,
          CollectionKind.new, addMiddleware,
          MiddlewareCollection.add_middleware, Middleware.fnAttr]
    | oneOfAll a b =>
        simp [middlewareDecorator, chain_of, collection_of, collectionOfLoop,
          CollectionKind.new, addMiddleware,
          MiddlewareCollection.add_middleware, Middleware.fnAttr]
    | allOfAll a b =>
        simp [middlewareDecorator, chain_of, collection_of, collectionOfLoop,
          CollectionKind.new, addMiddleware,
          MiddlewareCollection.add_middleware, Middleware.fnAttr]
  · simp [middlewareDecorator, chain_of, collection_of, collectionOfLoop,
      CollectionKind.new, as_middleware, MiddlewareFunction.init,
      addMiddleware, MiddlewareCollection.add_middleware, Middleware.fnAttr]

/-- C9 witness: decorating a non-chain middleware builds a fresh chain
holding `[inner, outer]` in that order. -/
theorem C9_middleware_decorator_witness :
    isChain (Middleware.oneOfAll 7 []) = false
    ∧ middlewareDecorator (Middleware.allOfAll 8 [])
        (Dyn.mw (Middleware.oneOfAll 7 [])) 5
      = .ok (.chain 5 none [Middleware.oneOfAll 7 [], Middleware.allOfAll 8 []],
             6) := by
  refine ⟨rfl, ?_⟩
  have h := (C9_middleware_decorator 5 0 0 (Middleware.allOfAll 8 [])
      (Middleware.oneOfAll 7 []) none [] (fun a c nx k => nx a c k)
      rfl).2.2.2.1
  simpa [Middleware.fnAttr] using h

end Hugo
